import Mathlib

/-!
# Verification of the `DashboardContent` selection/fetch/refresh controller

Shallow embedding of `src/admin-panel/src/pages/DashboardContent.tsx`.
The component owns two nullable snapshot slots (device chart data and
hierarchy chart data), a loading flag, a time range, and a "last refresh"
stamp.  A selection-driven `useEffect` issues fetches, a 5-second interval
re-issues them, and two async loaders guard on the auth token and settle
by transforming or storing the response.

The embedding is an explicit event-step machine: effect runs, timer ticks,
fetch settlements and unmount are events; in-flight fetches are tracked in
a pending list so that the asynchronous settlement order is explicit.
-/

namespace Dashboard

/-- A JavaScript id value: the TSX code passes `number | string` ids around. -/
inductive JSId where
  | num (n : Int)
  | str (s : String)
deriving DecidableEq, Repr

/-- JavaScript falsiness of an id value (`0` and `""` are falsy). -/
def JSId.falsy : JSId → Bool
  | .num n => n = 0
  | .str s => s = ""

/-- Render an id the way `deviceId.toString()` does. -/
def JSId.toStr : JSId → String
  | .num n => toString n
  | .str s => s

/-- Digits of a decimal prefix, as used by `parseInt`. -/
def takeDigits (cs : List Char) : List Char := cs.takeWhile Char.isDigit

/-- Accumulate a digit list into a natural number. -/
def digitsToNat (cs : List Char) : Nat :=
  cs.foldl (fun a c => a * 10 + (c.toNat - 48)) 0

/-- Model of JavaScript `parseInt` on a string (base 10): parse an optional
sign and the longest decimal-digit prefix; `none` models `NaN`. -/
def parseIntJS (s : String) : Option Int :=
  let cs := s.data.dropWhile (fun c => c = ' ')
  match cs with
  | '-' :: rest =>
      let ds := takeDigits rest
      if ds.isEmpty then none else some (-(digitsToNat ds : Int))
  | '+' :: rest =>
      let ds := takeDigits rest
      if ds.isEmpty then none else some (digitsToNat ds : Int)
  | _ =>
      let ds := takeDigits cs
      if ds.isEmpty then none else some (digitsToNat ds : Int)

/-- Model of JavaScript `Number(x)` on a string: the whole (trimmed) string
must be numeric; an empty string is `0`; `none` models `NaN`. -/
def numberJS (s : String) : Option Int :=
  let cs := s.data.dropWhile (fun c => c = ' ')
  let cs := (cs.reverse.dropWhile (fun c => c = ' ')).reverse
  match cs with
  | [] => some 0
  | '-' :: rest =>
      if rest ≠ [] ∧ rest.all Char.isDigit then some (-(digitsToNat rest : Int)) else none
  | '+' :: rest =>
      if rest ≠ [] ∧ rest.all Char.isDigit then some (digitsToNat rest : Int) else none
  | _ =>
      if cs.all Char.isDigit then some (digitsToNat cs : Int) else none

/-- `typeof deviceId === 'string' ? parseInt(deviceId) : deviceId`
(line 79 of the TSX). `none` models `NaN`. -/
def coerceDeviceId : JSId → Option Int
  | .num n => some n
  | .str s => parseIntJS s

/-- `Number(hierarchyId)` (line 123 of the TSX). `none` models `NaN`. -/
def coerceHierarchyId : JSId → Option Int
  | .num n => some n
  | .str s => numberJS s

/-- The device prop: the effect reads `selectedDevice.deviceId || selectedDevice.id`. -/
structure Device where
  deviceId : Option JSId
  id : JSId
deriving DecidableEq, Repr

/-- `selectedDevice.deviceId || selectedDevice.id` — JavaScript `||` falls
through on falsy (`0`, `""`, absent) `deviceId`. -/
def Device.effectiveId (d : Device) : JSId :=
  match d.deviceId with
  | some i => if i.falsy then d.id else i
  | none => d.id

/-- The hierarchy prop: the effect reads only `selectedHierarchy.id`. -/
structure Hierarchy where
  id : JSId
deriving DecidableEq, Repr

/-- One point of the enhanced chart response; measurement values are opaque
to the component (it only copies them), modelled as integers. -/
structure ChartPoint where
  timestamp : String
  gfr : Int
  gor : Int
  gvf : Int
  ofr : Int
  wfr : Int
  wlr : Int
  pressure : Int
  temperature : Int
deriving DecidableEq, Repr

/-- The `device` object of the enhanced device-chart response. -/
structure EnhancedDevice where
  deviceId : Option Int
  deviceSerial : String
  deviceName : String
  deviceLogo : Option String
  metadata : Option String
  createdAt : Option String
  wellName : Option String
  companyName : Option String
deriving DecidableEq, Repr

/-- The `data` payload of the enhanced device-chart response. -/
structure EnhancedResponseData where
  device : EnhancedDevice
  chartData : List ChartPoint
  latestData : Option ChartPoint
  timeRange : String
  totalDataPoints : Int
deriving DecidableEq, Repr

/-- The hierarchy payload is stored verbatim; it is opaque to the component. -/
abbrev HierarchyChartData := String

/-- The `device` part of the `DeviceChartData` snapshot shape. -/
structure SnapshotDevice where
  id : String
  serial_number : String
  type : String
  logo : Option String
  metadata : Option String
  created_at : String
  location : Option String
  company : String
deriving DecidableEq, Repr

/-- The `DeviceChartData` snapshot stored in the `chartData` state slot. -/
structure DeviceChartData where
  device : SnapshotDevice
  chartData : List ChartPoint
  latestData : Option ChartPoint
  timeRange : String
  totalDataPoints : Int
deriving DecidableEq, Repr

/-- JavaScript `x || y` for an optional string: falls through on absent or
empty string. -/
def jsOrStr (x : Option String) (y : String) : String :=
  match x with
  | some s => if s = "" then y else s
  | none => y

/-- The per-point rebuild inside `response.data.chartData.map(point => ...)`
(lines 94–104): every field is copied unchanged. -/
def copyPoint (p : ChartPoint) : ChartPoint :=
  { timestamp := p.timestamp
    gfr := p.gfr
    gor := p.gor
    gvf := p.gvf
    ofr := p.ofr
    wfr := p.wfr
    wlr := p.wlr
    pressure := p.pressure
    temperature := p.temperature }

/-- The `transformedData` construction of `loadDeviceChartData`
(lines 83–108).  `origId` is the `deviceId` argument of the function
(used by the `|| deviceId.toString()` fallback) and `now` is the value of
`new Date().toISOString()` at settlement time (used by the
`createdAt || ...` fallback). -/
def transformedData (origId : JSId) (now : String) (d : EnhancedResponseData) :
    DeviceChartData :=
  { device :=
      { id := match d.device.deviceId with
              | some n => toString n
              | none => origId.toStr
        serial_number := d.device.deviceSerial
        type := d.device.deviceName
        logo := d.device.deviceLogo
        metadata := d.device.metadata
        created_at := jsOrStr d.device.createdAt now
        location := d.device.wellName
        company := jsOrStr d.device.companyName "Unknown" }
    chartData := d.chartData.map copyPoint
    latestData := d.latestData
    timeRange := d.timeRange
    totalDataPoints := d.totalDataPoints }

/-- The component's own state hooks: `chartData`, `hierarchyChartData`,
`timeRange` (initial `'day'`), `isLoading` (initial `false`) and
`lastRefresh` (a timestamp). -/
structure CState where
  chartData : Option DeviceChartData
  hierarchyChartData : Option HierarchyChartData
  timeRange : String
  isLoading : Bool
  lastRefresh : Nat
deriving DecidableEq, Repr

/-- The props consumed by the effects: `selectedDevice`, `selectedHierarchy`
and the auth `token` from `useAuth()`. -/
structure Props where
  selectedDevice : Option Device
  selectedHierarchy : Option Hierarchy
  token : Option String
deriving DecidableEq, Repr

/-- An in-flight fetch: the synchronous prefix of a loader has run (token
guard passed, loading flag set, endpoint called) and its promise has not
settled yet.  A device fetch remembers the `deviceId` argument because the
transform's `|| deviceId.toString()` fallback reads it. -/
inductive PendingFetch where
  | devicePending (origId : JSId)
  | hierarchyPending
deriving DecidableEq, Repr

/-- A call made to the API client (`getDeviceChartDataEnhanced` or
`getHierarchyChartDataEnhanced`); the id argument is `none` when the
coercion produced `NaN`. -/
inductive EndpointCall where
  | deviceCall (deviceId : Option Int) (timeRange : String) (token : String)
  | hierarchyCall (hierarchyId : Option Int) (timeRange : String) (token : String)
deriving DecidableEq, Repr

/-- The payload carried by a resolved response. -/
inductive Payload where
  | devicePayload (d : EnhancedResponseData)
  | hierarchyPayload (h : HierarchyChartData)
deriving DecidableEq, Repr

/-- How a fetch promise settles: rejection, or resolution with a
`{success, data}` response. -/
inductive Outcome where
  | rejected
  | resolved (success : Bool) (data : Option Payload)
deriving DecidableEq, Repr

/-- `!token` — JavaScript falsiness of the auth token (absent or empty). -/
def tokenFalsy : Option String → Bool
  | none => true
  | some s => s = ""

/-- Result of running the synchronous prefix of a loader (or of an effect
that may invoke one): updated component state, fetches newly in flight,
endpoint calls newly issued. -/
structure StartResult where
  comp : CState
  newPending : List PendingFetch
  newCalls : List EndpointCall
deriving DecidableEq, Repr

/-- Synchronous prefix of `loadDeviceChartData` (lines 73–80): return if
`!token`; otherwise set `isLoading`, coerce the id, and call the device
endpoint with the captured time range and token.  `timeRange` and `token`
are parameters because the interval callback invokes the loader through a
closure captured at effect-run time. -/
def loadDeviceStart (token : Option String) (timeRange : String) (devId : JSId)
    (c : CState) : StartResult :=
  match token with
  | none => ⟨c, [], []⟩
  | some t =>
      if t = "" then ⟨c, [], []⟩
      else
        ⟨{ c with isLoading := true }, [.devicePending devId],
          [.deviceCall (coerceDeviceId devId) timeRange t]⟩

/-- Synchronous prefix of `loadHierarchyChartData` (lines 118–123). -/
def loadHierarchyStart (token : Option String) (timeRange : String) (hierId : JSId)
    (c : CState) : StartResult :=
  match token with
  | none => ⟨c, [], []⟩
  | some t =>
      if t = "" then ⟨c, [], []⟩
      else
        ⟨{ c with isLoading := true }, [.hierarchyPending],
          [.hierarchyCall (coerceHierarchyId hierId) timeRange t]⟩

/-- Settlement of a fetch promise (lines 81–115 and 124–131): on a resolved
response with `success && data`, store the (transformed) payload; on
rejection, log; in every case the `finally` clears the loading flag.
Returns the updated state and the `console.error` lines emitted. -/
def settleFetch (pf : PendingFetch) (o : Outcome) (now : String) (c : CState) :
    CState × List String :=
  match pf with
  | .devicePending origId =>
      match o with
      | .rejected =>
          ({ c with isLoading := false }, ["Failed to load device chart data:"])
      | .resolved success data =>
          match success, data with
          | true, some (.devicePayload d) =>
              ({ c with chartData := some (transformedData origId now d),
                        isLoading := false }, [])
          | _, _ => ({ c with isLoading := false }, [])
  | .hierarchyPending =>
      match o with
      | .rejected =>
          ({ c with isLoading := false }, ["Failed to load hierarchy chart data:"])
      | .resolved success data =>
          match success, data with
          | true, some (.hierarchyPayload h) =>
              ({ c with hierarchyChartData := some h, isLoading := false }, [])
          | _, _ => ({ c with isLoading := false }, [])

/-- Body of the selection `useEffect` (lines 34–43): device selected and no
hierarchy → device fetch and clear the hierarchy snapshot; hierarchy
selected and no device → hierarchy fetch and clear the device snapshot;
otherwise nothing. -/
def selectionEffect (dev : Option Device) (hier : Option Hierarchy)
    (token : Option String) (c : CState) : StartResult :=
  match dev, hier with
  | some d, none =>
      let r := loadDeviceStart token c.timeRange d.effectiveId c
      ⟨{ r.comp with hierarchyChartData := none }, r.newPending, r.newCalls⟩
  | none, some h =>
      let r := loadHierarchyStart token c.timeRange h.id c
      ⟨{ r.comp with chartData := none }, r.newPending, r.newCalls⟩
  | _, _ => ⟨c, [], []⟩

/-- The closure captured by the `setInterval` callback: the render's
`selectedDevice`, `selectedHierarchy`, and — through the loader closures —
`token` and `timeRange`. -/
structure TimerClosure where
  selectedDevice : Option Device
  selectedHierarchy : Option Hierarchy
  token : Option String
  timeRange : String
deriving DecidableEq, Repr

/-- One firing of the interval callback (lines 52–61): stamp `lastRefresh`
and re-issue the fetch matching the captured selection. -/
def tickEffect (tc : TimerClosure) (now : Nat) (c : CState) : StartResult :=
  let c1 := { c with lastRefresh := now }
  match tc.selectedDevice, tc.selectedHierarchy with
  | some d, none => loadDeviceStart tc.token tc.timeRange d.effectiveId c1
  | none, some h => loadHierarchyStart tc.token tc.timeRange h.id c1
  | _, _ => ⟨c1, [], []⟩

/-- Whole-system state: mount flag, current props, component state, the
interval (with its captured closure) if armed, in-flight fetches, and the
traces of endpoint calls and `console.error` output. -/
structure World where
  mounted : Bool
  props : Props
  comp : CState
  timer : Option TimerClosure
  pending : List PendingFetch
  endpointCalls : List EndpointCall
  log : List String
deriving DecidableEq, Repr

/-- Events driving the machine: a props re-render, a click on a time-range
button, an interval firing, the settlement of the `i`-th in-flight fetch,
and unmount. -/
inductive Event where
  | propsUpdate (p : Props)
  | clickTimeRange (r : String)
  | tick (now : Nat)
  | settle (i : Nat) (o : Outcome) (now : String)
  | unmount
deriving DecidableEq, Repr

/-- Initial hook values: both snapshots `null`, `timeRange = 'day'`,
`isLoading = false`. -/
def initCState : CState :=
  { chartData := none, hierarchyChartData := none, timeRange := "day",
    isLoading := false, lastRefresh := 0 }

/-- Fold a loader/effect result into the world. -/
def applyStart (w : World) (r : StartResult) : World :=
  { w with comp := r.comp,
           pending := w.pending ++ r.newPending,
           endpointCalls := w.endpointCalls ++ r.newCalls }

/-- Mounting with props `p`: initial state, then the selection effect and
the timer effect run. -/
def mountWorld (p : Props) : World :=
  let w0 : World :=
    { mounted := true, props := p, comp := initCState, timer := none,
      pending := [], endpointCalls := [], log := [] }
  let w1 := applyStart w0
    (selectionEffect p.selectedDevice p.selectedHierarchy p.token w0.comp)
  { w1 with timer := some ⟨p.selectedDevice, p.selectedHierarchy, p.token,
                           w1.comp.timeRange⟩ }

/-- One step of the machine.  A props update re-runs both effects exactly
when some dependency changed (the selection effect depends on
`[selectedDevice, selectedHierarchy, timeRange, token]`, the timer effect on
`[selectedDevice, selectedHierarchy, token]`; a props update cannot change
`timeRange`, so both re-run iff the props changed).  A time-range click
re-runs only the selection effect.  The timer effect's cleanup clears the
old interval before a new one is armed, and on unmount.  Settlements may
arrive in any order and also after unmount. -/
def step (w : World) (e : Event) : World :=
  match e with
  | .propsUpdate p =>
      if w.mounted then
        if p = w.props then w
        else
          let w1 := { w with props := p }
          let w2 := applyStart w1
            (selectionEffect p.selectedDevice p.selectedHierarchy p.token w1.comp)
          { w2 with timer := some ⟨p.selectedDevice, p.selectedHierarchy,
                                   p.token, w2.comp.timeRange⟩ }
      else w
  | .clickTimeRange r =>
      if w.mounted then
        if r = w.comp.timeRange then w
        else
          let c1 := { w.comp with timeRange := r }
          let w1 := { w with comp := c1 }
          applyStart w1
            (selectionEffect w.props.selectedDevice w.props.selectedHierarchy
              w.props.token c1)
      else w
  | .tick now =>
      if w.mounted then
        match w.timer with
        | some tc => applyStart w (tickEffect tc now w.comp)
        | none => w
      else w
  | .settle i o now =>
      match w.pending[i]? with
      | some pf =>
          let s := settleFetch pf o now w.comp
          { w with comp := s.1, pending := w.pending.eraseIdx i,
                   log := w.log ++ s.2 }
      | none => w
  | .unmount =>
      if w.mounted then { w with mounted := false, timer := none } else w

/-- Run a list of events. -/
def runEvents (w : World) : List Event → World
  | [] => w
  | e :: es => runEvents (step w e) es

/-- A world is reachable when some mount followed by some event sequence
produces it. -/
def Reachable (w : World) : Prop :=
  ∃ p evs, w = runEvents (mountWorld p) evs

/-- Exactly one of the two selections is set (JavaScript truthiness of the
two object props). -/
def exactlyOneSelected (dev : Option Device) (hier : Option Hierarchy) : Prop :=
  (dev.isSome ∧ hier.isNone) ∨ (dev.isNone ∧ hier.isSome)

instance (dev : Option Device) (hier : Option Hierarchy) :
    Decidable (exactlyOneSelected dev hier) := by
  unfold exactlyOneSelected; infer_instance

/-- Both selections set, or neither. -/
def bothOrNeither (dev : Option Device) (hier : Option Hierarchy) : Prop :=
  (dev.isSome ∧ hier.isSome) ∨ (dev.isNone ∧ hier.isNone)

instance (dev : Option Device) (hier : Option Hierarchy) :
    Decidable (bothOrNeither dev hier) := by
  unfold bothOrNeither; infer_instance

/-! ### Concrete fixtures used by witnesses and counterexamples -/

/-- A sample device prop. -/
def d0 : Device := { deviceId := some (.num 7), id := .num 7 }

/-- A sample hierarchy prop. -/
def h0 : Hierarchy := { id := .num 3 }

/-- Props: device selected, token present. -/
def pDevTok : Props :=
  { selectedDevice := some d0, selectedHierarchy := none, token := some "tok" }

/-- Props: hierarchy selected, token present. -/
def pHierTok : Props :=
  { selectedDevice := none, selectedHierarchy := some h0, token := some "tok" }

/-- Props: both selections set, token present. -/
def pBothTok : Props :=
  { selectedDevice := some d0, selectedHierarchy := some h0, token := some "tok" }

/-- Props: nothing selected, no token. -/
def pEmpty : Props :=
  { selectedDevice := none, selectedHierarchy := none, token := none }

/-- Props: nothing selected, token present. -/
def pEmptyTok : Props :=
  { selectedDevice := none, selectedHierarchy := none, token := some "tok" }

/-- Props: device selected, no token. -/
def pDevNoTok : Props :=
  { selectedDevice := some d0, selectedHierarchy := none, token := none }

/-- A sample enhanced device-chart response payload. -/
def sampleDeviceResp : EnhancedResponseData :=
  { device :=
      { deviceId := some 7, deviceSerial := "SN-1", deviceName := "MPFM",
        deviceLogo := none, metadata := none, createdAt := some "2024-01-01",
        wellName := some "W1", companyName := some "Acme" }
    chartData := [⟨"t1", 1, 2, 3, 4, 5, 6, 7, 8⟩]
    latestData := some ⟨"t1", 1, 2, 3, 4, 5, 6, 7, 8⟩
    timeRange := "day"
    totalDataPoints := 1 }

/-- The same response with `createdAt` absent. -/
def sampleRespNoCreated : EnhancedResponseData :=
  { sampleDeviceResp with
      device := { sampleDeviceResp.device with createdAt := none } }

/-- The `console.error` line emitted when a fetch of the given kind rejects. -/
def errorLine : PendingFetch → String
  | .devicePending _ => "Failed to load device chart data:"
  | .hierarchyPending => "Failed to load hierarchy chart data:"

/-- Device selected and no hierarchy (the effect's first branch guard). -/
def Props.devMode (p : Props) : Bool :=
  p.selectedDevice.isSome && p.selectedHierarchy.isNone

/-- Hierarchy selected and no device (the effect's second branch guard). -/
def Props.hierMode (p : Props) : Bool :=
  p.selectedDevice.isNone && p.selectedHierarchy.isSome

/-- Both selections set, or neither (the effect's silent case). -/
def Props.neutralMode (p : Props) : Bool :=
  (p.selectedDevice.isSome && p.selectedHierarchy.isSome) ||
  (p.selectedDevice.isNone && p.selectedHierarchy.isNone)

/-- Every in-flight fetch is a device fetch. -/
def allDevicePending (l : List PendingFetch) : Bool :=
  l.all fun pf => match pf with | .devicePending _ => true | .hierarchyPending => false

/-- Every in-flight fetch is a hierarchy fetch. -/
def allHierarchyPending (l : List PendingFetch) : Bool :=
  l.all fun pf => pf = .hierarchyPending

/-- Loading-flag/endpoint-call bookkeeping invariant: the flag is up only
while a fetch is in flight, and a fetch can be in flight only once the
endpoint has been called. -/
def Inv4 (w : World) : Prop :=
  (w.comp.isLoading = true → w.pending ≠ []) ∧
  (w.pending ≠ [] → w.endpointCalls ≠ [])

/-- Mode/snapshot invariant: in device mode the hierarchy snapshot is
cleared and only device fetches are in flight; symmetrically in hierarchy
mode; in the neutral mode nothing is in flight and at most one snapshot is
populated; and the armed interval's closure agrees with the current props. -/
def InvJ (w : World) : Prop :=
  (w.props.devMode = true →
    w.comp.hierarchyChartData = none ∧ allDevicePending w.pending = true) ∧
  (w.props.hierMode = true →
    w.comp.chartData = none ∧ allHierarchyPending w.pending = true) ∧
  (w.props.neutralMode = true →
    ¬(w.comp.chartData.isSome = true ∧ w.comp.hierarchyChartData.isSome = true) ∧
    w.pending = []) ∧
  (∀ tc, w.timer = some tc →
    tc.selectedDevice = w.props.selectedDevice ∧
    tc.selectedHierarchy = w.props.selectedHierarchy ∧
    tc.token = w.props.token)

/-- An event is quiescent in a world when it is not a props update, or no
fetch is in flight. -/
def eventQuiescent (w : World) : Event → Bool
  | .propsUpdate _ => w.pending.isEmpty
  | _ => true

/-- A trace is quiescent at selection changes when every props update
happens while no fetch is in flight (every fetch settles before the
selection can change). -/
def quiescentOK : World → List Event → Bool
  | _, [] => true
  | w, e :: es => eventQuiescent w e && quiescentOK (step w e) es

/-- The raced world: a device fetch is still in flight when the selection
switches to a hierarchy; the hierarchy fetch succeeds, then the stale
device fetch lands. -/
def wRace : World :=
  runEvents (mountWorld pDevTok)
    [.propsUpdate pHierTok,
     .settle 1 (.resolved true (some (.hierarchyPayload "H"))) "T1",
     .settle 0 (.resolved true (some (.devicePayload sampleDeviceResp))) "T2"]

/-- When both or neither selection is set, the selection effect does nothing. -/
lemma selectionEffect_neutral (dev : Option Device) (hier : Option Hierarchy)
    (token : Option String) (c : CState)
    (hbn : bothOrNeither dev hier) :
    selectionEffect dev hier token c = ⟨c, [], []⟩ := by
  rcases hbn with ⟨h1, h2⟩ | ⟨h1, h2⟩
  · rcases Option.isSome_iff_exists.mp h1 with ⟨d, hd⟩
    rcases Option.isSome_iff_exists.mp h2 with ⟨h, hh⟩
    rw [hd, hh]; rfl
  · rw [Option.isNone_iff_eq_none.mp h1, Option.isNone_iff_eq_none.mp h2]; rfl

/-- C9: an invocation of either fetch function while the auth token is
absent returns immediately: the component state (so the loading flag and
both snapshots) is unchanged, no fetch is left in flight, and no endpoint
call is made. -/
theorem c9_token_guard (tr : String) (devId hierId : JSId) (c : CState) :
    loadDeviceStart none tr devId c = ⟨c, [], []⟩ ∧
    loadHierarchyStart none tr hierId c = ⟨c, [], []⟩ :=
  ⟨rfl, rfl⟩

/-- C5: when a fetch promise rejects, the error is logged and swallowed:
both snapshots, the time range, the refresh stamp, the call trace, the
props and the timer are unchanged; the only state change is that the
`finally` step clears the loading flag. -/
theorem c5_rejection_swallowed (w : World) (i : Nat) (now : String)
    (pf : PendingFetch) (h : w.pending[i]? = some pf) :
    ((step w (.settle i .rejected now)).comp.chartData = w.comp.chartData) ∧
    ((step w (.settle i .rejected now)).comp.hierarchyChartData =
      w.comp.hierarchyChartData) ∧
    ((step w (.settle i .rejected now)).comp.timeRange = w.comp.timeRange) ∧
    ((step w (.settle i .rejected now)).comp.lastRefresh = w.comp.lastRefresh) ∧
    ((step w (.settle i .rejected now)).comp.isLoading = false) ∧
    ((step w (.settle i .rejected now)).endpointCalls = w.endpointCalls) ∧
    ((step w (.settle i .rejected now)).log = w.log ++ [errorLine pf]) ∧
    ((step w (.settle i .rejected now)).props = w.props) ∧
    ((step w (.settle i .rejected now)).timer = w.timer) := by
  simp only [step, h]
  cases pf <;> simp [settleFetch, errorLine]

/-- C5 witness: a rejected device fetch on a concrete mounted world. -/
theorem c5_witness :
    (mountWorld pDevTok).pending[0]? = some (.devicePending (.num 7)) ∧
    ((step (mountWorld pDevTok) (.settle 0 .rejected "T")).comp.chartData =
      (mountWorld pDevTok).comp.chartData ∧
     (step (mountWorld pDevTok) (.settle 0 .rejected "T")).comp.hierarchyChartData =
      (mountWorld pDevTok).comp.hierarchyChartData ∧
     (step (mountWorld pDevTok) (.settle 0 .rejected "T")).comp.timeRange =
      (mountWorld pDevTok).comp.timeRange ∧
     (step (mountWorld pDevTok) (.settle 0 .rejected "T")).comp.lastRefresh =
      (mountWorld pDevTok).comp.lastRefresh ∧
     (step (mountWorld pDevTok) (.settle 0 .rejected "T")).comp.isLoading = false ∧
     (step (mountWorld pDevTok) (.settle 0 .rejected "T")).endpointCalls =
      (mountWorld pDevTok).endpointCalls ∧
     (step (mountWorld pDevTok) (.settle 0 .rejected "T")).log =
      (mountWorld pDevTok).log ++ [errorLine (.devicePending (.num 7))] ∧
     (step (mountWorld pDevTok) (.settle 0 .rejected "T")).props =
      (mountWorld pDevTok).props ∧
     (step (mountWorld pDevTok) (.settle 0 .rejected "T")).timer =
      (mountWorld pDevTok).timer) :=
  ⟨by decide,
   c5_rejection_swallowed (mountWorld pDevTok) 0 "T" (.devicePending (.num 7))
     (by decide)⟩

/-- C10: when a fetch promise resolves but the response has `success`
false or no data payload, the snapshots and the log are unchanged and only
the loading flag is cleared, silently — in contrast with a rejected fetch,
which appends an error line to the log. -/
theorem c10_non_success_silent (w : World) (i : Nat) (pf : PendingFetch)
    (success : Bool) (data : Option Payload) (now : String)
    (h : w.pending[i]? = some pf)
    (hbad : ¬(success = true ∧ data.isSome = true)) :
    ((step w (.settle i (.resolved success data) now)).comp.chartData =
      w.comp.chartData) ∧
    ((step w (.settle i (.resolved success data) now)).comp.hierarchyChartData =
      w.comp.hierarchyChartData) ∧
    ((step w (.settle i (.resolved success data) now)).log = w.log) ∧
    ((step w (.settle i (.resolved success data) now)).comp.isLoading = false) ∧
    ((step w (.settle i (.resolved success data) now)).endpointCalls =
      w.endpointCalls) ∧
    ((step w (.settle i .rejected now)).log = w.log ++ [errorLine pf]) := by
  simp only [step, h]
  cases pf <;> cases success <;> cases data <;>
    simp_all [settleFetch, errorLine]

/-- C10 witness: a `success: false` resolution of a concrete device fetch. -/
theorem c10_witness :
    (mountWorld pDevTok).pending[0]? = some (.devicePending (.num 7)) ∧
    ¬((false = true) ∧ ((none : Option Payload)).isSome = true) ∧
    ((step (mountWorld pDevTok) (.settle 0 (.resolved false none) "T")).comp.chartData =
      (mountWorld pDevTok).comp.chartData ∧
     (step (mountWorld pDevTok) (.settle 0 (.resolved false none) "T")).comp.hierarchyChartData =
      (mountWorld pDevTok).comp.hierarchyChartData ∧
     (step (mountWorld pDevTok) (.settle 0 (.resolved false none) "T")).log =
      (mountWorld pDevTok).log ∧
     (step (mountWorld pDevTok) (.settle 0 (.resolved false none) "T")).comp.isLoading = false ∧
     (step (mountWorld pDevTok) (.settle 0 (.resolved false none) "T")).endpointCalls =
      (mountWorld pDevTok).endpointCalls ∧
     (step (mountWorld pDevTok) (.settle 0 .rejected "T")).log =
      (mountWorld pDevTok).log ++ [errorLine (.devicePending (.num 7))]) :=
  ⟨by decide, by decide,
   c10_non_success_silent (mountWorld pDevTok) 0 (.devicePending (.num 7))
     false none "T" (by decide) (by decide)⟩

/-- C1 counterexample: after a successful device fetch, a props update to a
both-set selection leaves the device snapshot populated — the claim says the
selection-change reaction clears both snapshots to null, but the code's
both/neither case does nothing at all. -/
theorem c1_counterexample :
    bothOrNeither pBothTok.selectedDevice pBothTok.selectedHierarchy ∧
    (runEvents (mountWorld pDevTok)
      [.settle 0 (.resolved true (some (.devicePayload sampleDeviceResp))) "T",
       .propsUpdate pBothTok]).comp.chartData.isSome = true := by
  constructor
  · left; exact ⟨rfl, rfl⟩
  · decide

/-- C1 amended: for a selection-props change to a state where both or
neither selection is set, no fetch call is issued and both snapshots are
left unchanged (they are not cleared). -/
theorem c1_no_fetch_no_clear (w : World) (p : Props)
    (hm : w.mounted = true)
    (hbn : bothOrNeither p.selectedDevice p.selectedHierarchy) :
    ((step w (.propsUpdate p)).endpointCalls = w.endpointCalls) ∧
    ((step w (.propsUpdate p)).pending = w.pending) ∧
    ((step w (.propsUpdate p)).comp.chartData = w.comp.chartData) ∧
    ((step w (.propsUpdate p)).comp.hierarchyChartData =
      w.comp.hierarchyChartData) ∧
    ((step w (.propsUpdate p)).comp.isLoading = w.comp.isLoading) ∧
    ((step w (.propsUpdate p)).log = w.log) := by
  by_cases hpq : p = w.props
  · simp [step, hm, hpq]
  · have hsel := selectionEffect_neutral p.selectedDevice p.selectedHierarchy
      p.token w.comp hbn
    simp [step, hm, hpq, applyStart, hsel]

/-- C1 witness: both-set props update on a concrete mounted world. -/
theorem c1_witness :
    (mountWorld pDevTok).mounted = true ∧
    bothOrNeither pBothTok.selectedDevice pBothTok.selectedHierarchy ∧
    ((step (mountWorld pDevTok) (.propsUpdate pBothTok)).endpointCalls =
      (mountWorld pDevTok).endpointCalls ∧
     (step (mountWorld pDevTok) (.propsUpdate pBothTok)).pending =
      (mountWorld pDevTok).pending ∧
     (step (mountWorld pDevTok) (.propsUpdate pBothTok)).comp.chartData =
      (mountWorld pDevTok).comp.chartData ∧
     (step (mountWorld pDevTok) (.propsUpdate pBothTok)).comp.hierarchyChartData =
      (mountWorld pDevTok).comp.hierarchyChartData ∧
     (step (mountWorld pDevTok) (.propsUpdate pBothTok)).comp.isLoading =
      (mountWorld pDevTok).comp.isLoading ∧
     (step (mountWorld pDevTok) (.propsUpdate pBothTok)).log =
      (mountWorld pDevTok).log) :=
  ⟨rfl, Or.inl ⟨rfl, rfl⟩,
   c1_no_fetch_no_clear (mountWorld pDevTok) pBothTok rfl (Or.inl ⟨rfl, rfl⟩)⟩

/-- C3 counterexample: a selection change to a device-only selection while
the auth token is absent issues zero fetch calls, not exactly one. -/
theorem c3_counterexample :
    pDevNoTok ≠ pEmpty ∧
    exactlyOneSelected pDevNoTok.selectedDevice pDevNoTok.selectedHierarchy ∧
    (runEvents (mountWorld pEmpty) [.propsUpdate pDevNoTok]).endpointCalls
      = [] := by
  refine ⟨by decide, Or.inl ⟨rfl, rfl⟩, by decide⟩

/-- C3 amended: on every change of the selection props or the auth token
where exactly one of device/hierarchy is selected, and on every change of
the time range with such a selection, exactly one fetch call is issued with
the currently selected time range and the matching endpoint — provided the
auth token is present and non-empty; with an absent or empty token no call
is issued. -/
theorem c3_exactly_one_fetch (w : World) (p : Props)
    (hm : w.mounted = true) (hne : p ≠ w.props) :
    (∀ d t, p.selectedDevice = some d → p.selectedHierarchy = none →
      p.token = some t → t ≠ "" →
      (step w (.propsUpdate p)).endpointCalls = w.endpointCalls ++
        [.deviceCall (coerceDeviceId d.effectiveId) w.comp.timeRange t]) ∧
    (∀ h t, p.selectedDevice = none → p.selectedHierarchy = some h →
      p.token = some t → t ≠ "" →
      (step w (.propsUpdate p)).endpointCalls = w.endpointCalls ++
        [.hierarchyCall (coerceHierarchyId h.id) w.comp.timeRange t]) ∧
    (tokenFalsy p.token = true →
      (step w (.propsUpdate p)).endpointCalls = w.endpointCalls) ∧
    (∀ r d t, r ≠ w.comp.timeRange → w.props.selectedDevice = some d →
      w.props.selectedHierarchy = none → w.props.token = some t → t ≠ "" →
      (step w (.clickTimeRange r)).endpointCalls = w.endpointCalls ++
        [.deviceCall (coerceDeviceId d.effectiveId) r t]) ∧
    (∀ r h t, r ≠ w.comp.timeRange → w.props.selectedDevice = none →
      w.props.selectedHierarchy = some h → w.props.token = some t → t ≠ "" →
      (step w (.clickTimeRange r)).endpointCalls = w.endpointCalls ++
        [.hierarchyCall (coerceHierarchyId h.id) r t]) := by
  refine ⟨?_, ?_, ?_, ?_, ?_⟩
  · intro d t hd hh htok ht
    simp [step, hm, hne, applyStart, selectionEffect, hd, hh, htok,
      loadDeviceStart, ht]
  · intro h t hd hh htok ht
    simp [step, hm, hne, applyStart, selectionEffect, hd, hh, htok,
      loadHierarchyStart, ht]
  · intro htf
    by_cases hpq : p = w.props
    · simp [step, hm, hpq]
    · cases hd : p.selectedDevice with
      | none =>
          cases hh : p.selectedHierarchy with
          | none => simp [step, hm, hpq, applyStart, selectionEffect, hd, hh]
          | some h =>
              cases htok : p.token with
              | none =>
                  simp [step, hm, hpq, applyStart, selectionEffect, hd, hh,
                    htok, loadHierarchyStart]
              | some t =>
                  have ht : t = "" := by
                    simpa [tokenFalsy, htok] using htf
                  simp [step, hm, hpq, applyStart, selectionEffect, hd, hh,
                    htok, loadHierarchyStart, ht]
      | some d =>
          cases hh : p.selectedHierarchy with
          | some h => simp [step, hm, hpq, applyStart, selectionEffect, hd, hh]
          | none =>
              cases htok : p.token with
              | none =>
                  simp [step, hm, hpq, applyStart, selectionEffect, hd, hh,
                    htok, loadDeviceStart]
              | some t =>
                  have ht : t = "" := by
                    simpa [tokenFalsy, htok] using htf
                  simp [step, hm, hpq, applyStart, selectionEffect, hd, hh,
                    htok, loadDeviceStart, ht]
  · intro r d t hr hd hh htok ht
    simp [step, hm, hr, applyStart, selectionEffect, hd, hh, htok,
      loadDeviceStart, ht]
  · intro r h t hr hd hh htok ht
    simp [step, hm, hr, applyStart, selectionEffect, hd, hh, htok,
      loadHierarchyStart, ht]

/-- C3 witness: a token arriving on a device-only selection issues exactly
the device call with the current time range. -/
theorem c3_witness :
    (mountWorld pDevNoTok).mounted = true ∧ pDevTok ≠ (mountWorld pDevNoTok).props ∧
    ((step (mountWorld pDevNoTok) (.propsUpdate pDevTok)).endpointCalls =
      (mountWorld pDevNoTok).endpointCalls ++
        [.deviceCall (coerceDeviceId d0.effectiveId)
          (mountWorld pDevNoTok).comp.timeRange "tok"]) :=
  ⟨rfl, by decide,
   (c3_exactly_one_fetch (mountWorld pDevNoTok) pDevTok rfl (by decide)).1
     d0 "tok" rfl rfl rfl (by decide)⟩

/-- C6 counterexample: a firing of the auto-refresh timer on a mounted
component with a device-only selection but an absent auth token stamps the
refresh timestamp yet issues no fetch — the claim says every such firing
re-issues the matching fetch. -/
theorem c6_counterexample :
    exactlyOneSelected (mountWorld pDevNoTok).props.selectedDevice
      (mountWorld pDevNoTok).props.selectedHierarchy ∧
    (runEvents (mountWorld pDevNoTok) [.tick 5]).comp.lastRefresh = 5 ∧
    (runEvents (mountWorld pDevNoTok) [.tick 5]).endpointCalls = [] := by
  refine ⟨Or.inl ⟨rfl, rfl⟩, by decide, by decide⟩

/-- C6 amended: every firing of the armed auto-refresh timer on the mounted
component stamps the last-refresh timestamp and alters neither the props
nor the time range nor the timer; it re-issues exactly the fetch matching
the captured selection when exactly one selection is set and the captured
auth token is present and non-empty, and issues no fetch when neither or
both selections are set or the token is absent or empty. -/
theorem c6_tick_behavior (w : World) (tc : TimerClosure) (now : Nat)
    (hm : w.mounted = true) (htimer : w.timer = some tc) :
    ((step w (.tick now)).comp.lastRefresh = now) ∧
    ((step w (.tick now)).props = w.props) ∧
    ((step w (.tick now)).comp.timeRange = w.comp.timeRange) ∧
    ((step w (.tick now)).timer = w.timer) ∧
    (∀ d t, tc.selectedDevice = some d → tc.selectedHierarchy = none →
      tc.token = some t → t ≠ "" →
      (step w (.tick now)).endpointCalls = w.endpointCalls ++
        [.deviceCall (coerceDeviceId d.effectiveId) tc.timeRange t]) ∧
    (∀ h t, tc.selectedDevice = none → tc.selectedHierarchy = some h →
      tc.token = some t → t ≠ "" →
      (step w (.tick now)).endpointCalls = w.endpointCalls ++
        [.hierarchyCall (coerceHierarchyId h.id) tc.timeRange t]) ∧
    (bothOrNeither tc.selectedDevice tc.selectedHierarchy →
      (step w (.tick now)).endpointCalls = w.endpointCalls) ∧
    (tokenFalsy tc.token = true →
      (step w (.tick now)).endpointCalls = w.endpointCalls) := by
  have hstep : step w (.tick now) = applyStart w (tickEffect tc now w.comp) := by
    simp [step, hm, htimer]
  rw [hstep]
  refine ⟨?_, rfl, ?_, rfl, ?_, ?_, ?_, ?_⟩
  · cases hd : tc.selectedDevice <;> cases hh : tc.selectedHierarchy <;>
      cases htok : tc.token <;>
      simp_all [tickEffect, applyStart, loadDeviceStart, loadHierarchyStart] <;>
      split <;> simp
  · cases hd : tc.selectedDevice <;> cases hh : tc.selectedHierarchy <;>
      cases htok : tc.token <;>
      simp_all [tickEffect, applyStart, loadDeviceStart, loadHierarchyStart] <;>
      split <;> simp
  · intro d t hd hh htok ht
    simp [tickEffect, applyStart, hd, hh, htok, loadDeviceStart, ht]
  · intro h t hd hh htok ht
    simp [tickEffect, applyStart, hd, hh, htok, loadHierarchyStart, ht]
  · intro hbn
    rcases hbn with ⟨h1, h2⟩ | ⟨h1, h2⟩
    · rcases Option.isSome_iff_exists.mp h1 with ⟨d, hd⟩
      rcases Option.isSome_iff_exists.mp h2 with ⟨h, hh⟩
      simp [tickEffect, applyStart, hd, hh]
    · simp [tickEffect, applyStart, Option.isNone_iff_eq_none.mp h1,
        Option.isNone_iff_eq_none.mp h2]
  · intro htf
    cases hd : tc.selectedDevice <;> cases hh : tc.selectedHierarchy <;>
      cases htok : tc.token <;>
      simp_all [tickEffect, applyStart, loadDeviceStart, loadHierarchyStart,
        tokenFalsy]

/-- C6 witness: a concrete firing with a device selection and a live token. -/
theorem c6_witness :
    (mountWorld pDevTok).mounted = true ∧
    (mountWorld pDevTok).timer =
      some ⟨some d0, none, some "tok", "day"⟩ ∧
    ((step (mountWorld pDevTok) (.tick 9)).comp.lastRefresh = 9 ∧
     (step (mountWorld pDevTok) (.tick 9)).endpointCalls =
      (mountWorld pDevTok).endpointCalls ++
        [.deviceCall (coerceDeviceId d0.effectiveId) "day" "tok"]) :=
  ⟨rfl, by decide,
   (c6_tick_behavior (mountWorld pDevTok) ⟨some d0, none, some "tok", "day"⟩ 9
      rfl (by decide)).1,
   (c6_tick_behavior (mountWorld pDevTok) ⟨some d0, none, some "tok", "day"⟩ 9
      rfl (by decide)).2.2.2.2.1 d0 "tok" rfl rfl rfl (by decide)⟩

/-- Copying every field of a chart point is the identity. -/
lemma copyPoint_id : copyPoint = id := by
  funext p; rfl

/-- C8 counterexample: on a response whose `createdAt` is absent, the
transform writes the settlement-time clock value into `created_at` — the
same response transformed at two different instants yields two different
snapshots, so the remap is not a pure field renaming of the response. -/
theorem c8_counterexample :
    sampleRespNoCreated.device.createdAt = none ∧
    (transformedData (.num 7) "T1" sampleRespNoCreated).device.created_at = "T1" ∧
    transformedData (.num 7) "T1" sampleRespNoCreated ≠
      transformedData (.num 7) "T2" sampleRespNoCreated := by
  refine ⟨rfl, rfl, ?_⟩
  intro h
  have := congrArg (fun d => d.device.created_at) h
  simp [transformedData, sampleRespNoCreated, sampleDeviceResp, jsOrStr] at this

/-- C8 amended: every device fetch calls the device-chart endpoint with the
numerically coerced device id and the active time range; on success the
response is remapped into the snapshot shape by field renames, except that
the id is stringified (falling back to the requested id), `created_at`
falls back to the current clock value when the response field is absent or
empty, and `company` falls back to `'Unknown'`; the measurement points and
the remaining fields are copied unchanged. -/
theorem c8_device_fetch_transform (t : String) (ht : t ≠ "") :
    (∀ tr devId c,
      (loadDeviceStart (some t) tr devId c).newCalls =
        [.deviceCall (coerceDeviceId devId) tr t]) ∧
    (∀ origId now d,
      (transformedData origId now d).chartData = d.chartData ∧
      (transformedData origId now d).latestData = d.latestData ∧
      (transformedData origId now d).timeRange = d.timeRange ∧
      (transformedData origId now d).totalDataPoints = d.totalDataPoints ∧
      (transformedData origId now d).device.serial_number =
        d.device.deviceSerial ∧
      (transformedData origId now d).device.type = d.device.deviceName ∧
      (transformedData origId now d).device.logo = d.device.deviceLogo ∧
      (transformedData origId now d).device.metadata = d.device.metadata ∧
      (transformedData origId now d).device.location = d.device.wellName ∧
      (transformedData origId now d).device.created_at =
        jsOrStr d.device.createdAt now ∧
      (transformedData origId now d).device.company =
        jsOrStr d.device.companyName "Unknown" ∧
      (transformedData origId now d).device.id =
        (match d.device.deviceId with
         | some n => toString n
         | none => origId.toStr)) := by
  constructor
  · intro tr devId c
    simp [loadDeviceStart, ht]
  · intro origId now d
    refine ⟨?_, rfl, rfl, rfl, rfl, rfl, rfl, rfl, rfl, rfl, rfl, rfl⟩
    simp [transformedData, copyPoint_id]

/-- C8 witness: the concrete call and transform on the sample response. -/
theorem c8_witness :
    ("tok" : String) ≠ "" ∧
    (loadDeviceStart (some "tok") "day" (.num 7) initCState).newCalls =
      [.deviceCall (coerceDeviceId (.num 7)) "day" "tok"] ∧
    (transformedData (.num 7) "NOW" sampleDeviceResp).chartData =
      sampleDeviceResp.chartData ∧
    (transformedData (.num 7) "NOW" sampleDeviceResp).device.created_at =
      jsOrStr sampleDeviceResp.device.createdAt "NOW" :=
  ⟨by decide,
   (c8_device_fetch_transform "tok" (by decide)).1 "day" (.num 7) initCState,
   ((c8_device_fetch_transform "tok" (by decide)).2 (.num 7) "NOW"
      sampleDeviceResp).1,
   ((c8_device_fetch_transform "tok" (by decide)).2 (.num 7) "NOW"
      sampleDeviceResp).2.2.2.2.2.2.2.2.2.1⟩

/-- Shape of a device-loader run: either the token guard fires and nothing
happens, or the loading flag is set and exactly one call and one pending
fetch are produced. -/
lemma loadDeviceStart_shape (token : Option String) (tr : String) (devId : JSId)
    (c : CState) :
    loadDeviceStart token tr devId c = ⟨c, [], []⟩ ∨
    ∃ t, token = some t ∧ t ≠ "" ∧
      loadDeviceStart token tr devId c =
        ⟨{ c with isLoading := true }, [.devicePending devId],
          [.deviceCall (coerceDeviceId devId) tr t]⟩ := by
  cases token with
  | none => exact Or.inl rfl
  | some t =>
      by_cases ht : t = ""
      · exact Or.inl (by simp [loadDeviceStart, ht])
      · exact Or.inr ⟨t, rfl, ht, by simp [loadDeviceStart, ht]⟩

/-- Shape of a hierarchy-loader run. -/
lemma loadHierarchyStart_shape (token : Option String) (tr : String)
    (hierId : JSId) (c : CState) :
    loadHierarchyStart token tr hierId c = ⟨c, [], []⟩ ∨
    ∃ t, token = some t ∧ t ≠ "" ∧
      loadHierarchyStart token tr hierId c =
        ⟨{ c with isLoading := true }, [.hierarchyPending],
          [.hierarchyCall (coerceHierarchyId hierId) tr t]⟩ := by
  cases token with
  | none => exact Or.inl rfl
  | some t =>
      by_cases ht : t = ""
      · exact Or.inl (by simp [loadHierarchyStart, ht])
      · exact Or.inr ⟨t, rfl, ht, by simp [loadHierarchyStart, ht]⟩

/-- Bookkeeping facts about one selection-effect run: time range and
refresh stamp are untouched, pending fetches and endpoint calls are
produced in lockstep, and the loading flag rises exactly with a call. -/
lemma selectionEffect_shape (dev : Option Device) (hier : Option Hierarchy)
    (token : Option String) (c : CState) :
    ((selectionEffect dev hier token c).comp.timeRange = c.timeRange) ∧
    ((selectionEffect dev hier token c).comp.lastRefresh = c.lastRefresh) ∧
    ((selectionEffect dev hier token c).newPending.length =
      (selectionEffect dev hier token c).newCalls.length) ∧
    ((selectionEffect dev hier token c).comp.isLoading = true →
      c.isLoading = true ∨ (selectionEffect dev hier token c).newCalls ≠ []) ∧
    ((selectionEffect dev hier token c).newCalls ≠ [] →
      (selectionEffect dev hier token c).comp.isLoading = true) := by
  cases dev with
  | none =>
      cases hier with
      | none => simp [selectionEffect]
      | some h =>
          rcases loadHierarchyStart_shape token c.timeRange h.id c with
            heq | ⟨t, htok, ht, heq⟩ <;> simp [selectionEffect, heq]
  | some d =>
      cases hier with
      | some h => simp [selectionEffect]
      | none =>
          rcases loadDeviceStart_shape token c.timeRange d.effectiveId c with
            heq | ⟨t, htok, ht, heq⟩ <;> simp [selectionEffect, heq]

/-- Bookkeeping facts about one interval firing. -/
lemma tickEffect_shape (tc : TimerClosure) (now : Nat) (c : CState) :
    ((tickEffect tc now c).comp.timeRange = c.timeRange) ∧
    ((tickEffect tc now c).newPending.length =
      (tickEffect tc now c).newCalls.length) ∧
    ((tickEffect tc now c).comp.isLoading = true →
      c.isLoading = true ∨ (tickEffect tc now c).newCalls ≠ []) ∧
    ((tickEffect tc now c).newCalls ≠ [] →
      (tickEffect tc now c).comp.isLoading = true) := by
  cases hd : tc.selectedDevice with
  | none =>
      cases hh : tc.selectedHierarchy with
      | none => simp [tickEffect, hd, hh]
      | some h =>
          rcases loadHierarchyStart_shape tc.token tc.timeRange h.id
              { c with lastRefresh := now } with heq | ⟨t, htok, ht, heq⟩ <;>
            simp [tickEffect, hd, hh, heq]
  | some d =>
      cases hh : tc.selectedHierarchy with
      | some h => simp [tickEffect, hd, hh]
      | none =>
          rcases loadDeviceStart_shape tc.token tc.timeRange d.effectiveId
              { c with lastRefresh := now } with heq | ⟨t, htok, ht, heq⟩ <;>
            simp [tickEffect, hd, hh, heq]

/-- The `finally` step of a settlement always clears the loading flag. -/
lemma settleFetch_isLoading (pf : PendingFetch) (o : Outcome) (now : String)
    (c : CState) : (settleFetch pf o now c).1.isLoading = false := by
  cases pf <;> cases o <;> try rfl
  all_goals
    rename_i success data
    cases success <;> rcases data with _ | p <;> try rfl
  all_goals cases p <;> rfl

/-- Settling a device fetch never touches the hierarchy snapshot. -/
lemma settleFetch_device_hier (origId : JSId) (o : Outcome) (now : String)
    (c : CState) :
    (settleFetch (.devicePending origId) o now c).1.hierarchyChartData =
      c.hierarchyChartData := by
  cases o with
  | rejected => rfl
  | resolved success data =>
      cases success <;> rcases data with _ | p <;> try rfl
      cases p <;> rfl

/-- Settling a hierarchy fetch never touches the device snapshot. -/
lemma settleFetch_hier_chart (o : Outcome) (now : String) (c : CState) :
    (settleFetch .hierarchyPending o now c).1.chartData = c.chartData := by
  cases o with
  | rejected => rfl
  | resolved success data =>
      cases success <;> rcases data with _ | p <;> try rfl
      cases p <;> rfl

/-- Folding a loader/effect result into a world preserves the
loading/pending/calls bookkeeping invariant. -/
lemma inv4_applyStart (w : World) (r : StartResult)
    (h1 : w.comp.isLoading = true → w.pending ≠ [])
    (h2 : w.pending ≠ [] → w.endpointCalls ≠ [])
    (hlen : r.newPending.length = r.newCalls.length)
    (hload : r.comp.isLoading = true →
      w.comp.isLoading = true ∨ r.newCalls ≠ []) :
    Inv4 (applyStart w r) := by
  constructor
  · intro hl
    have hl' : r.comp.isLoading = true := hl
    rcases hload hl' with hc | hc
    · have := h1 hc
      simp only [applyStart, ne_eq, List.append_eq_nil]
      tauto
    · have : r.newPending ≠ [] := by
        intro hnil
        apply hc
        have := hlen
        rw [hnil] at this
        simpa using this.symm
      simp only [applyStart, ne_eq, List.append_eq_nil]
      tauto
  · intro hp
    have : w.pending ≠ [] ∨ r.newPending ≠ [] := by
      by_contra hcon
      push_neg at hcon
      apply hp
      simp [applyStart, hcon.1, hcon.2]
    rcases this with hc | hc
    · have := h2 hc
      simp only [applyStart, ne_eq, List.append_eq_nil]
      tauto
    · have : r.newCalls ≠ [] := by
        intro hnil
        apply hc
        rw [hnil] at hlen
        simpa using hlen
      simp only [applyStart, ne_eq, List.append_eq_nil]
      tauto

/-- The bookkeeping invariant holds right after mount. -/
lemma inv4_mount (p : Props) : Inv4 (mountWorld p) := by
  have hshape := selectionEffect_shape p.selectedDevice p.selectedHierarchy
    p.token initCState
  have key := inv4_applyStart
    { mounted := true, props := p, comp := initCState, timer := none,
      pending := [], endpointCalls := [], log := [] }
    (selectionEffect p.selectedDevice p.selectedHierarchy p.token initCState)
    (by intro hl; simp [initCState] at hl)
    (by intro hp; simp at hp)
    hshape.2.2.1
    (by
      intro hl
      rcases hshape.2.2.2.1 hl with hc | hc
      · simp [initCState] at hc
      · exact Or.inr hc)
  exact ⟨key.1, key.2⟩

/-- Every step preserves the bookkeeping invariant. -/
lemma inv4_step (w : World) (e : Event) (h : Inv4 w) : Inv4 (step w e) := by
  obtain ⟨h1, h2⟩ := h
  cases e with
  | propsUpdate p =>
      by_cases hm : w.mounted = true
      · by_cases hpq : p = w.props
        · simpa [step, hm, hpq] using And.intro h1 h2
        · have hshape := selectionEffect_shape p.selectedDevice
            p.selectedHierarchy p.token w.comp
          have key := inv4_applyStart { w with props := p }
            (selectionEffect p.selectedDevice p.selectedHierarchy p.token w.comp)
            h1 h2 hshape.2.2.1 hshape.2.2.2.1
          simpa [step, hm, hpq, Inv4] using key
      · simp only [Bool.not_eq_true] at hm
        simpa [step, hm] using And.intro h1 h2
  | clickTimeRange r =>
      by_cases hm : w.mounted = true
      · by_cases hr : r = w.comp.timeRange
        · simpa [step, hm, hr] using And.intro h1 h2
        · have hshape := selectionEffect_shape w.props.selectedDevice
            w.props.selectedHierarchy w.props.token
            { w.comp with timeRange := r }
          have key := inv4_applyStart
            { w with comp := { w.comp with timeRange := r } }
            (selectionEffect w.props.selectedDevice w.props.selectedHierarchy
              w.props.token { w.comp with timeRange := r })
            h1 h2 hshape.2.2.1 hshape.2.2.2.1
          simpa [step, hm, hr, Inv4] using key
      · simp only [Bool.not_eq_true] at hm
        simpa [step, hm] using And.intro h1 h2
  | tick now =>
      by_cases hm : w.mounted = true
      · cases htimer : w.timer with
        | none => simpa [step, hm, htimer] using And.intro h1 h2
        | some tc =>
            have hshape := tickEffect_shape tc now w.comp
            have key := inv4_applyStart w (tickEffect tc now w.comp)
              h1 h2 hshape.2.1 hshape.2.2.1
            simpa [step, hm, htimer, Inv4] using key
      · simp only [Bool.not_eq_true] at hm
        simpa [step, hm] using And.intro h1 h2
  | settle i o now =>
      cases hget : w.pending[i]? with
      | none => simpa [step, hget] using And.intro h1 h2
      | some pf =>
          constructor
          · intro hl
            exfalso
            have : (settleFetch pf o now w.comp).1.isLoading = false :=
              settleFetch_isLoading pf o now w.comp
            simp [step, hget, this] at hl
          · intro hp
            have hw : w.pending ≠ [] := by
              intro hnil
              apply hp
              simp [step, hget, hnil, List.eraseIdx]
            have := h2 hw
            simpa [step, hget] using this
  | unmount =>
      by_cases hm : w.mounted = true
      · simpa [step, hm, Inv4] using And.intro h1 h2
      · simp only [Bool.not_eq_true] at hm
        simpa [step, hm] using And.intro h1 h2

/-- The bookkeeping invariant is preserved by any event sequence. -/
lemma inv4_run (evs : List Event) (w : World) (h : Inv4 w) :
    Inv4 (runEvents w evs) := by
  induction evs generalizing w with
  | nil => exact h
  | cons e es ih => exact ih (step w e) (inv4_step w e h)

/-- Every reachable world satisfies the bookkeeping invariant. -/
lemma inv4_reachable (w : World) (hr : Reachable w) : Inv4 w := by
  obtain ⟨p, evs, rfl⟩ := hr
  exact inv4_run evs (mountWorld p) (inv4_mount p)

/-- C4: in every reachable world the loading flag is false before the
first endpoint call and is up only while some fetch is in flight; every
settlement (success or failure) clears it in the `finally` step; and
whenever a step issues a new endpoint call the flag is set with it. -/
theorem c4_loading_flag (w : World) (hr : Reachable w) :
    (w.endpointCalls = [] → w.comp.isLoading = false) ∧
    (w.comp.isLoading = true → w.pending ≠ []) ∧
    (∀ i o now, i < w.pending.length →
      (step w (.settle i o now)).comp.isLoading = false) ∧
    (∀ e, w.endpointCalls.length < (step w e).endpointCalls.length →
      (step w e).comp.isLoading = true) := by
  obtain ⟨hload, hcalls⟩ := inv4_reachable w hr
  refine ⟨?_, hload, ?_, ?_⟩
  · intro hnil
    by_contra hcon
    simp only [Bool.not_eq_false] at hcon
    exact hcalls (hload hcon) hnil
  · intro i o now hi
    have hget : w.pending[i]? = some w.pending[i] := List.getElem?_eq_getElem hi
    simp [step, hget, settleFetch_isLoading]
  · intro e hlt
    cases e with
    | propsUpdate p =>
        by_cases hm : w.mounted = true
        · by_cases hpq : p = w.props
          · simp [step, hm, hpq] at hlt
          · have hshape := selectionEffect_shape p.selectedDevice
              p.selectedHierarchy p.token w.comp
            have hne : (selectionEffect p.selectedDevice p.selectedHierarchy
                p.token w.comp).newCalls ≠ [] := by
              intro hnil
              simp [step, hm, hpq, applyStart, hnil] at hlt
            have := hshape.2.2.2.2 hne
            simpa [step, hm, hpq, applyStart] using this
        · simp only [Bool.not_eq_true] at hm
          simp [step, hm] at hlt
    | clickTimeRange r =>
        by_cases hm : w.mounted = true
        · by_cases hr' : r = w.comp.timeRange
          · simp [step, hm, hr'] at hlt
          · have hshape := selectionEffect_shape w.props.selectedDevice
              w.props.selectedHierarchy w.props.token
              { w.comp with timeRange := r }
            have hne : (selectionEffect w.props.selectedDevice
                w.props.selectedHierarchy w.props.token
                { w.comp with timeRange := r }).newCalls ≠ [] := by
              intro hnil
              simp [step, hm, hr', applyStart, hnil] at hlt
            have := hshape.2.2.2.2 hne
            simpa [step, hm, hr', applyStart] using this
        · simp only [Bool.not_eq_true] at hm
          simp [step, hm] at hlt
    | tick now =>
        by_cases hm : w.mounted = true
        · cases htimer : w.timer with
          | none => simp [step, hm, htimer] at hlt
          | some tc =>
              have hshape := tickEffect_shape tc now w.comp
              have hne : (tickEffect tc now w.comp).newCalls ≠ [] := by
                intro hnil
                simp [step, hm, htimer, applyStart, hnil] at hlt
              have := hshape.2.2.2 hne
              simpa [step, hm, htimer, applyStart] using this
        · simp only [Bool.not_eq_true] at hm
          simp [step, hm] at hlt
    | settle i o now =>
        cases hget : w.pending[i]? with
        | none => simp [step, hget] at hlt
        | some pf => simp [step, hget] at hlt
    | unmount =>
        by_cases hm : w.mounted = true
        · simp [step, hm] at hlt
        · simp only [Bool.not_eq_true] at hm
          simp [step, hm] at hlt

/-- C4 witness: the loading flag is false on a freshly mounted world with
no selection (no fetch has started). -/
theorem c4_witness : (mountWorld pEmpty).comp.isLoading = false :=
  (c4_loading_flag (mountWorld pEmpty) ⟨pEmpty, [], rfl⟩).1 rfl

/-- One step preserves the fact that an unmounted component has no timer. -/
lemma unmounted_timer_step (w : World) (e : Event)
    (h : w.mounted = false → w.timer = none) :
    (step w e).mounted = false → (step w e).timer = none := by
  cases e with
  | propsUpdate p =>
      by_cases hm : w.mounted = true
      · by_cases hpq : p = w.props
        · simp [step, hm, hpq]
        · intro hf
          simp [step, hm, hpq, applyStart] at hf
      · simp only [Bool.not_eq_true] at hm
        simpa [step, hm] using h
  | clickTimeRange r =>
      by_cases hm : w.mounted = true
      · by_cases hr : r = w.comp.timeRange
        · simp [step, hm, hr]
        · intro hf
          simp [step, hm, hr, applyStart] at hf
      · simp only [Bool.not_eq_true] at hm
        simpa [step, hm] using h
  | tick now =>
      by_cases hm : w.mounted = true
      · cases htimer : w.timer with
        | none => simp [step, hm, htimer]
        | some tc =>
            intro hf
            simp [step, hm, htimer, applyStart] at hf
      · simp only [Bool.not_eq_true] at hm
        simpa [step, hm] using h
  | settle i o now =>
      cases hget : w.pending[i]? with
      | none => simpa [step, hget] using h
      | some pf =>
          intro hf
          simp only [step, hget] at hf ⊢
          exact h hf
  | unmount =>
      by_cases hm : w.mounted = true
      · intro _
        simp [step, hm]
      · simp only [Bool.not_eq_true] at hm
        simpa [step, hm] using h

/-- Any event sequence preserves the unmounted-has-no-timer fact. -/
lemma unmounted_timer_run (evs : List Event) (w : World)
    (h : w.mounted = false → w.timer = none) :
    (runEvents w evs).mounted = false → (runEvents w evs).timer = none := by
  induction evs generalizing w with
  | nil => exact h
  | cons e es ih => exact ih (step w e) (unmounted_timer_step w e h)

/-- In every reachable world, an unmounted component has no timer. -/
lemma unmounted_timer_reachable (w : World) (hr : Reachable w) :
    w.mounted = false → w.timer = none := by
  obtain ⟨p, evs, rfl⟩ := hr
  refine unmounted_timer_run evs (mountWorld p) ?_
  intro hf
  simp [mountWorld, applyStart] at hf

/-- C7: the auto-refresh timer is torn down and recreated (with the fresh
props in its closure) exactly on selection/token changes, is untouched by
time-range clicks, ticks, and settlements, is unconditionally torn down on
unmount, and after unmount no step issues any further endpoint call and no
timer exists. -/
theorem c7_timer_lifecycle (w : World) (hr : Reachable w) :
    (∀ p, w.mounted = true → p ≠ w.props →
      (step w (.propsUpdate p)).timer =
        some ⟨p.selectedDevice, p.selectedHierarchy, p.token,
              w.comp.timeRange⟩) ∧
    (∀ p, p = w.props → (step w (.propsUpdate p)).timer = w.timer) ∧
    (∀ r, (step w (.clickTimeRange r)).timer = w.timer) ∧
    (∀ now, (step w (.tick now)).timer = w.timer) ∧
    (∀ i o now, (step w (.settle i o now)).timer = w.timer) ∧
    (w.mounted = true →
      (step w .unmount).timer = none ∧ (step w .unmount).mounted = false) ∧
    (w.mounted = false → w.timer = none) ∧
    (∀ e, w.mounted = false →
      (step w e).endpointCalls = w.endpointCalls ∧
      (step w e).timer = none ∧ (step w e).mounted = false) := by
  refine ⟨?_, ?_, ?_, ?_, ?_, ?_, unmounted_timer_reachable w hr, ?_⟩
  · intro p hm hne
    have htr := (selectionEffect_shape p.selectedDevice p.selectedHierarchy
      p.token w.comp).1
    simp [step, hm, hne, applyStart, htr]
  · intro p hpq
    by_cases hm : w.mounted = true
    · simp [step, hm, hpq]
    · simp only [Bool.not_eq_true] at hm
      simp [step, hm]
  · intro r
    by_cases hm : w.mounted = true
    · by_cases hr' : r = w.comp.timeRange
      · simp [step, hm, hr']
      · simp [step, hm, hr', applyStart]
    · simp only [Bool.not_eq_true] at hm
      simp [step, hm]
  · intro now
    by_cases hm : w.mounted = true
    · cases htimer : w.timer with
      | none => simp [step, hm, htimer]
      | some tc => simp [step, hm, htimer, applyStart]
    · simp only [Bool.not_eq_true] at hm
      simp [step, hm]
  · intro i o now
    cases hget : w.pending[i]? with
    | none => simp [step, hget]
    | some pf => simp [step, hget]
  · intro hm
    constructor <;> simp [step, hm]
  · intro e hm
    have hnone : w.timer = none := unmounted_timer_reachable w hr hm
    cases e with
    | propsUpdate p => simp [step, hm, hnone]
    | clickTimeRange r => simp [step, hm, hnone]
    | tick now => simp [step, hm, hnone]
    | settle i o now =>
        cases hget : w.pending[i]? with
        | none => simp [step, hget, hnone, hm]
        | some pf => simp [step, hget, hnone, hm]
    | unmount => simp [step, hm, hnone]

/-- C7 witness: on a concrete mounted world, unmount removes the timer and
a time-range click leaves it untouched. -/
theorem c7_witness :
    ((step (mountWorld pDevTok) .unmount).timer = none ∧
     (step (mountWorld pDevTok) .unmount).mounted = false) ∧
    (step (mountWorld pDevTok) (.clickTimeRange "week")).timer =
      (mountWorld pDevTok).timer :=
  ⟨(c7_timer_lifecycle (mountWorld pDevTok) ⟨pDevTok, [], rfl⟩).2.2.2.2.2.1 rfl,
   (c7_timer_lifecycle (mountWorld pDevTok) ⟨pDevTok, [], rfl⟩).2.2.1 "week"⟩

/-- The mode invariant implies that at most one snapshot is populated. -/
lemma invJ_not_both (w : World) (hJ : InvJ w) :
    ¬(w.comp.chartData.isSome = true ∧ w.comp.hierarchyChartData.isSome = true) := by
  obtain ⟨hdev, hhier, hneu, -⟩ := hJ
  cases hd : w.props.selectedDevice with
  | none =>
      cases hh : w.props.selectedHierarchy with
      | none =>
          exact (hneu (by simp [Props.neutralMode, hd, hh])).1
      | some h =>
          have := (hhier (by simp [Props.hierMode, hd, hh])).1
          simp [this]
  | some d =>
      cases hh : w.props.selectedHierarchy with
      | none =>
          have := (hdev (by simp [Props.devMode, hd, hh])).1
          simp [this]
      | some h =>
          exact (hneu (by simp [Props.neutralMode, hd, hh])).1

/-- After a run of the selection effect from a state with at most one
populated snapshot, with the timer re-armed on the same props and nothing
previously in flight, the mode invariant holds. -/
lemma invJ_selectionRun (q : Props) (c : CState) (m : Bool) (tr : String)
    (calls : List EndpointCall) (lg : List String)
    (hboth : ¬(c.chartData.isSome = true ∧ c.hierarchyChartData.isSome = true)) :
    InvJ { mounted := m, props := q,
           comp := (selectionEffect q.selectedDevice q.selectedHierarchy
             q.token c).comp,
           timer := some ⟨q.selectedDevice, q.selectedHierarchy, q.token, tr⟩,
           pending := (selectionEffect q.selectedDevice q.selectedHierarchy
             q.token c).newPending,
           endpointCalls := calls, log := lg } := by
  cases hd : q.selectedDevice with
  | none =>
      cases hh : q.selectedHierarchy with
      | none =>
          refine ⟨?_, ?_, ?_, ?_⟩
          · intro hmode; simp [Props.devMode, hd] at hmode
          · intro hmode; simp [Props.hierMode, hh] at hmode
          · intro _
            exact ⟨by simpa [selectionEffect, hd, hh] using hboth,
              by simp [selectionEffect, hd, hh]⟩
          · intro tc htc
            simp only [Option.some_inj] at htc
            subst htc
            exact ⟨hd.symm, hh.symm, rfl⟩
      | some h =>
          refine ⟨?_, ?_, ?_, ?_⟩
          · intro hmode; simp [Props.devMode, hd] at hmode
          · intro _
            constructor
            · simp [selectionEffect, hd, hh]
            · rcases loadHierarchyStart_shape q.token c.timeRange h.id c with
                heq | ⟨t, htok, ht, heq⟩ <;>
                simp [selectionEffect, hd, hh, heq, allHierarchyPending]
          · intro hmode; simp [Props.neutralMode, hd, hh] at hmode
          · intro tc htc
            simp only [Option.some_inj] at htc
            subst htc
            exact ⟨hd.symm, hh.symm, rfl⟩
  | some d =>
      cases hh : q.selectedHierarchy with
      | none =>
          refine ⟨?_, ?_, ?_, ?_⟩
          · intro _
            constructor
            · simp [selectionEffect, hd, hh]
            · rcases loadDeviceStart_shape q.token c.timeRange d.effectiveId c
                with heq | ⟨t, htok, ht, heq⟩ <;>
                simp [selectionEffect, hd, hh, heq, allDevicePending]
          · intro hmode; simp [Props.hierMode, hd] at hmode
          · intro hmode; simp [Props.neutralMode, hd, hh] at hmode
          · intro tc htc
            simp only [Option.some_inj] at htc
            subst htc
            exact ⟨hd.symm, hh.symm, rfl⟩
      | some h =>
          refine ⟨?_, ?_, ?_, ?_⟩
          · intro hmode; simp [Props.devMode, hh] at hmode
          · intro hmode; simp [Props.hierMode, hd] at hmode
          · intro _
            exact ⟨by simpa [selectionEffect, hd, hh] using hboth,
              by simp [selectionEffect, hd, hh]⟩
          · intro tc htc
            simp only [Option.some_inj] at htc
            subst htc
            exact ⟨hd.symm, hh.symm, rfl⟩

/-- The mode invariant holds right after mount. -/
lemma invJ_mount (p : Props) : InvJ (mountWorld p) := by
  have hstep : mountWorld p =
      { mounted := true, props := p,
        comp := (selectionEffect p.selectedDevice p.selectedHierarchy
          p.token initCState).comp,
        timer := some ⟨p.selectedDevice, p.selectedHierarchy, p.token,
          (selectionEffect p.selectedDevice p.selectedHierarchy
            p.token initCState).comp.timeRange⟩,
        pending := (selectionEffect p.selectedDevice p.selectedHierarchy
          p.token initCState).newPending,
        endpointCalls := (selectionEffect p.selectedDevice p.selectedHierarchy
          p.token initCState).newCalls,
        log := [] } := by
    simp [mountWorld, applyStart]
  rw [hstep]
  exact invJ_selectionRun p initCState true _ _ _ (by simp [initCState])

/-- Membership in an all-device pending list forces the device constructor. -/
lemma allDevicePending_elim (l : List PendingFetch) (pf : PendingFetch)
    (hall : allDevicePending l = true) (hmem : pf ∈ l) :
    ∃ origId, pf = .devicePending origId := by
  rw [allDevicePending, List.all_eq_true] at hall
  have := hall pf hmem
  cases pf with
  | devicePending origId => exact ⟨origId, rfl⟩
  | hierarchyPending => simp at this

/-- Membership in an all-hierarchy pending list forces the constructor. -/
lemma allHierarchyPending_elim (l : List PendingFetch) (pf : PendingFetch)
    (hall : allHierarchyPending l = true) (hmem : pf ∈ l) :
    pf = .hierarchyPending := by
  rw [allHierarchyPending, List.all_eq_true] at hall
  have := hall pf hmem
  simpa using this

/-- Removing an element preserves an `all` property. -/
lemma all_eraseIdx (l : List PendingFetch) (p : PendingFetch → Bool)
    (i : Nat) (h : l.all p = true) : (l.eraseIdx i).all p = true := by
  rw [List.all_eq_true] at h ⊢
  intro a ha
  exact h a ((List.eraseIdx_sublist l i).mem ha)

/-- Device mode means a device is selected and no hierarchy is. -/
lemma devMode_elim (p : Props) (h : p.devMode = true) :
    ∃ d, p.selectedDevice = some d ∧ p.selectedHierarchy = none := by
  cases hd : p.selectedDevice with
  | none => simp [Props.devMode, hd] at h
  | some d =>
      cases hh : p.selectedHierarchy with
      | none => exact ⟨d, rfl, rfl⟩
      | some x => simp [Props.devMode, hd, hh] at h

/-- Hierarchy mode means a hierarchy is selected and no device is. -/
lemma hierMode_elim (p : Props) (h : p.hierMode = true) :
    ∃ x, p.selectedDevice = none ∧ p.selectedHierarchy = some x := by
  cases hd : p.selectedDevice with
  | some d => simp [Props.hierMode, hd] at h
  | none =>
      cases hh : p.selectedHierarchy with
      | none => simp [Props.hierMode, hd, hh] at h
      | some x => exact ⟨x, rfl, rfl⟩

/-- Neutral mode means both selections are set or neither is. -/
lemma neutralMode_elim (p : Props) (h : p.neutralMode = true) :
    (∃ d x, p.selectedDevice = some d ∧ p.selectedHierarchy = some x) ∨
    (p.selectedDevice = none ∧ p.selectedHierarchy = none) := by
  cases hd : p.selectedDevice with
  | none =>
      cases hh : p.selectedHierarchy with
      | none => exact Or.inr ⟨rfl, rfl⟩
      | some x => simp [Props.neutralMode, hd, hh] at h
  | some d =>
      cases hh : p.selectedHierarchy with
      | none => simp [Props.neutralMode, hd, hh] at h
      | some x => exact Or.inl ⟨d, x, rfl, rfl⟩

/-- An `all` property distributes over the pending-list append. -/
lemma allDevicePending_append (l m : List PendingFetch) :
    allDevicePending (l ++ m) = (allDevicePending l && allDevicePending m) :=
  List.all_append

/-- An `all` property distributes over the pending-list append. -/
lemma allHierarchyPending_append (l m : List PendingFetch) :
    allHierarchyPending (l ++ m) =
      (allHierarchyPending l && allHierarchyPending m) :=
  List.all_append

/-- Folding an effect run that respects the current mode into a world with
unchanged props and timer preserves the mode invariant. -/
lemma invJ_preserve_effect (w : World) (r : StartResult) (hJ : InvJ w)
    (hdev2 : w.props.devMode = true →
      r.comp.hierarchyChartData = none ∧ allDevicePending r.newPending = true)
    (hhier2 : w.props.hierMode = true →
      r.comp.chartData = none ∧ allHierarchyPending r.newPending = true)
    (hneu2 : w.props.neutralMode = true →
      ¬(r.comp.chartData.isSome = true ∧ r.comp.hierarchyChartData.isSome = true) ∧
      r.newPending = []) :
    InvJ { mounted := w.mounted, props := w.props, comp := r.comp,
           timer := w.timer, pending := w.pending ++ r.newPending,
           endpointCalls := w.endpointCalls ++ r.newCalls, log := w.log } := by
  obtain ⟨hdev, hhier, hneu, htmr⟩ := hJ
  refine ⟨?_, ?_, ?_, ?_⟩
  · intro hmode
    obtain ⟨h1, h2⟩ := hdev2 hmode
    obtain ⟨-, h4⟩ := hdev hmode
    exact ⟨h1, by simp [allDevicePending_append, h2, h4]⟩
  · intro hmode
    obtain ⟨h1, h2⟩ := hhier2 hmode
    obtain ⟨-, h4⟩ := hhier hmode
    exact ⟨h1, by simp [allHierarchyPending_append, h2, h4]⟩
  · intro hmode
    obtain ⟨h1, h2⟩ := hneu2 hmode
    obtain ⟨-, h4⟩ := hneu hmode
    exact ⟨h1, by simp [h2, h4]⟩
  · intro tc htc
    exact htmr tc htc

/-- Every step from a mode-invariant world whose props updates happen in
quiescence preserves the mode invariant. -/
lemma invJ_step (w : World) (e : Event) (hJ : InvJ w)
    (hq : ∀ p, e = .propsUpdate p → w.pending = []) : InvJ (step w e) := by
  cases e with
  | propsUpdate p =>
      have hpe : w.pending = [] := hq p rfl
      by_cases hm : w.mounted = true
      · by_cases hpq : p = w.props
        · simpa [step, hm, hpq] using hJ
        · have hstep : step w (.propsUpdate p) =
              { mounted := true, props := p,
                comp := (selectionEffect p.selectedDevice p.selectedHierarchy
                  p.token w.comp).comp,
                timer := some ⟨p.selectedDevice, p.selectedHierarchy, p.token,
                  (selectionEffect p.selectedDevice p.selectedHierarchy
                    p.token w.comp).comp.timeRange⟩,
                pending := (selectionEffect p.selectedDevice
                  p.selectedHierarchy p.token w.comp).newPending,
                endpointCalls := w.endpointCalls ++
                  (selectionEffect p.selectedDevice p.selectedHierarchy
                    p.token w.comp).newCalls,
                log := w.log } := by
            simp [step, hm, hpq, applyStart, hpe]
          rw [hstep]
          exact invJ_selectionRun p w.comp true _ _ _ (invJ_not_both w hJ)
      · simp only [Bool.not_eq_true] at hm
        simpa [step, hm] using hJ
  | clickTimeRange r =>
      by_cases hm : w.mounted = true
      · by_cases hr' : r = w.comp.timeRange
        · simpa [step, hm, hr'] using hJ
        · have hstep : step w (.clickTimeRange r) =
              { mounted := w.mounted, props := w.props,
                comp := (selectionEffect w.props.selectedDevice
                  w.props.selectedHierarchy w.props.token
                  { w.comp with timeRange := r }).comp,
                timer := w.timer,
                pending := w.pending ++ (selectionEffect w.props.selectedDevice
                  w.props.selectedHierarchy w.props.token
                  { w.comp with timeRange := r }).newPending,
                endpointCalls := w.endpointCalls ++
                  (selectionEffect w.props.selectedDevice
                    w.props.selectedHierarchy w.props.token
                    { w.comp with timeRange := r }).newCalls,
                log := w.log } := by
            simp [step, hm, hr', applyStart]
          rw [hstep]
          refine invJ_preserve_effect w _ hJ ?_ ?_ ?_
          · intro hmode
            obtain ⟨d, hd, hh⟩ := devMode_elim w.props hmode
            constructor
            · simp [selectionEffect, hd, hh]
            · rcases loadDeviceStart_shape w.props.token
                  ({ w.comp with timeRange := r }).timeRange d.effectiveId
                  { w.comp with timeRange := r } with heq | ⟨t, htok, ht, heq⟩ <;>
                simp [selectionEffect, hd, hh, heq, allDevicePending]
          · intro hmode
            obtain ⟨h, hd, hh⟩ := hierMode_elim w.props hmode
            constructor
            · simp [selectionEffect, hd, hh]
            · rcases loadHierarchyStart_shape w.props.token
                  ({ w.comp with timeRange := r }).timeRange h.id
                  { w.comp with timeRange := r } with heq | ⟨t, htok, ht, heq⟩ <;>
                simp [selectionEffect, hd, hh, heq, allHierarchyPending]
          · intro hmode
            have hbn : bothOrNeither w.props.selectedDevice
                w.props.selectedHierarchy := by
              rcases neutralMode_elim w.props hmode with ⟨d, x, hd, hh⟩ | ⟨hd, hh⟩
              · exact Or.inl (by simp [hd, hh])
              · exact Or.inr (by simp [hd, hh])
            have hsel := selectionEffect_neutral w.props.selectedDevice
              w.props.selectedHierarchy w.props.token
              { w.comp with timeRange := r } hbn
            rw [hsel]
            exact ⟨invJ_not_both w hJ, rfl⟩
      · simp only [Bool.not_eq_true] at hm
        simpa [step, hm] using hJ
  | tick now =>
      by_cases hm : w.mounted = true
      · cases htimer : w.timer with
        | none => simpa [step, hm, htimer] using hJ
        | some tc =>
            obtain ⟨hcd, hch, hct⟩ := hJ.2.2.2 tc htimer
            have hstep : step w (.tick now) =
                { mounted := w.mounted, props := w.props,
                  comp := (tickEffect tc now w.comp).comp,
                  timer := w.timer,
                  pending := w.pending ++ (tickEffect tc now w.comp).newPending,
                  endpointCalls := w.endpointCalls ++
                    (tickEffect tc now w.comp).newCalls,
                  log := w.log } := by
              simp [step, hm, htimer, applyStart]
            rw [hstep]
            refine invJ_preserve_effect w _ hJ ?_ ?_ ?_
            · intro hmode
              obtain ⟨d, hd, hh⟩ := devMode_elim w.props hmode
              have hsnap : w.comp.hierarchyChartData = none :=
                (hJ.1 (by simp [Props.devMode, hd, hh])).1
              constructor
              · rcases loadDeviceStart_shape tc.token tc.timeRange
                    d.effectiveId { w.comp with lastRefresh := now } with
                  heq | ⟨t, htok, ht, heq⟩ <;>
                  simpa [tickEffect, hcd, hch, hd, hh, heq] using hsnap
              · rcases loadDeviceStart_shape tc.token tc.timeRange
                    d.effectiveId { w.comp with lastRefresh := now } with
                  heq | ⟨t, htok, ht, heq⟩ <;>
                  simp [tickEffect, hcd, hch, hd, hh, heq, allDevicePending]
            · intro hmode
              obtain ⟨h, hd, hh⟩ := hierMode_elim w.props hmode
              have hsnap : w.comp.chartData = none :=
                (hJ.2.1 (by simp [Props.hierMode, hd, hh])).1
              constructor
              · rcases loadHierarchyStart_shape tc.token tc.timeRange h.id
                    { w.comp with lastRefresh := now } with
                  heq | ⟨t, htok, ht, heq⟩ <;>
                  simpa [tickEffect, hcd, hch, hd, hh, heq] using hsnap
              · rcases loadHierarchyStart_shape tc.token tc.timeRange h.id
                    { w.comp with lastRefresh := now } with
                  heq | ⟨t, htok, ht, heq⟩ <;>
                  simp [tickEffect, hcd, hch, hd, hh, heq, allHierarchyPending]
            · intro hmode
              have hboth := invJ_not_both w hJ
              rcases neutralMode_elim w.props hmode with ⟨d, x, hd, hh⟩ | ⟨hd, hh⟩
              · constructor
                · simpa [tickEffect, hcd, hch, hd, hh] using hboth
                · simp [tickEffect, hcd, hch, hd, hh]
              · constructor
                · simpa [tickEffect, hcd, hch, hd, hh] using hboth
                · simp [tickEffect, hcd, hch, hd, hh]
      · simp only [Bool.not_eq_true] at hm
        simpa [step, hm] using hJ
  | settle i o now =>
      obtain ⟨hdev, hhier, hneu, htmr⟩ := hJ
      cases hget : w.pending[i]? with
      | none => simpa [step, hget] using ⟨hdev, hhier, hneu, htmr⟩
      | some pf =>
          have hmem : pf ∈ w.pending := List.getElem?_mem hget
          have hstep : step w (.settle i o now) =
              { mounted := w.mounted, props := w.props,
                comp := (settleFetch pf o now w.comp).1,
                timer := w.timer, pending := w.pending.eraseIdx i,
                endpointCalls := w.endpointCalls,
                log := w.log ++ (settleFetch pf o now w.comp).2 } := by
            simp [step, hget]
          rw [hstep]
          refine ⟨?_, ?_, ?_, ?_⟩
          · intro hmode
            obtain ⟨hsnap, hall⟩ := hdev hmode
            obtain ⟨origId, hpf⟩ :=
              allDevicePending_elim w.pending pf hall hmem
            subst hpf
            exact ⟨by simpa [settleFetch_device_hier] using hsnap,
              all_eraseIdx w.pending _ i hall⟩
          · intro hmode
            obtain ⟨hsnap, hall⟩ := hhier hmode
            have hpf := allHierarchyPending_elim w.pending pf hall hmem
            subst hpf
            exact ⟨by simpa [settleFetch_hier_chart] using hsnap,
              all_eraseIdx w.pending _ i hall⟩
          · intro hmode
            obtain ⟨-, hp⟩ := hneu hmode
            rw [hp] at hget
            simp at hget
          · intro tc htc
            exact htmr tc htc
  | unmount =>
      obtain ⟨hdev, hhier, hneu, htmr⟩ := hJ
      by_cases hm : w.mounted = true
      · have hstep : step w .unmount =
            { w with mounted := false, timer := none } := by
          simp [step, hm]
        rw [hstep]
        refine ⟨hdev, hhier, hneu, ?_⟩
        intro tc htc
        cases htc
      · simp only [Bool.not_eq_true] at hm
        simpa [step, hm] using ⟨hdev, hhier, hneu, htmr⟩

/-- The mode invariant is preserved along any quiescent event sequence. -/
lemma invJ_run (evs : List Event) (w : World) (hJ : InvJ w)
    (hq : quiescentOK w evs = true) : InvJ (runEvents w evs) := by
  induction evs generalizing w with
  | nil => exact hJ
  | cons e es ih =>
      rw [quiescentOK, Bool.and_eq_true] at hq
      refine ih (step w e) (invJ_step w e hJ ?_) hq.2
      intro p hep
      subst hep
      have h1 := hq.1
      rw [eventQuiescent] at h1
      exact List.isEmpty_iff.mp h1

/-- C2 counterexample: the raced world is reachable — a device fetch still
in flight at the switch to a hierarchy selection lands after the hierarchy
fetch succeeded — and has both snapshots non-null, violating the claimed
invariant. -/
theorem c2_counterexample :
    Reachable wRace ∧ wRace.comp.chartData.isSome = true ∧
    wRace.comp.hierarchyChartData.isSome = true :=
  ⟨⟨pDevTok,
    [.propsUpdate pHierTok,
     .settle 1 (.resolved true (some (.hierarchyPayload "H"))) "T1",
     .settle 0 (.resolved true (some (.devicePayload sampleDeviceResp))) "T2"],
    rfl⟩, by decide, by decide⟩

/-- C2 amended: switching the selection kind clears the snapshot of the
other kind synchronously — in particular a switch to a hierarchy selection
nulls the device snapshot without requiring any hierarchy fetch to
succeed — and in every state reached by a trace in which no fetch is still
in flight when the selection props change, at most one of the two snapshot
slots is non-null.  (With a stale in-flight fetch settling after a switch,
both slots can be non-null.) -/
theorem c2_snapshot_exclusion :
    (∀ p evs, quiescentOK (mountWorld p) evs = true →
      ¬((runEvents (mountWorld p) evs).comp.chartData.isSome = true ∧
        (runEvents (mountWorld p) evs).comp.hierarchyChartData.isSome = true)) ∧
    (∀ w q, w.mounted = true → q ≠ w.props →
      q.selectedDevice = none → q.selectedHierarchy.isSome = true →
      (step w (.propsUpdate q)).comp.chartData = none) ∧
    (∀ w q, w.mounted = true → q ≠ w.props →
      q.selectedDevice.isSome = true → q.selectedHierarchy = none →
      (step w (.propsUpdate q)).comp.hierarchyChartData = none) := by
  refine ⟨?_, ?_, ?_⟩
  · intro p evs hq
    exact invJ_not_both _ (invJ_run evs (mountWorld p) (invJ_mount p) hq)
  · intro w q hm hne hd hh
    rcases Option.isSome_iff_exists.mp hh with ⟨x, hx⟩
    rcases loadHierarchyStart_shape q.token w.comp.timeRange x.id w.comp with
      heq | ⟨t, htok, ht, heq⟩ <;>
      simp [step, hm, hne, applyStart, selectionEffect, hd, hx, heq]
  · intro w q hm hne hd hh
    rcases Option.isSome_iff_exists.mp hd with ⟨d, hx⟩
    rcases loadDeviceStart_shape q.token w.comp.timeRange d.effectiveId w.comp
      with heq | ⟨t, htok, ht, heq⟩ <;>
      simp [step, hm, hne, applyStart, selectionEffect, hx, hh, heq]

/-- C2 witness: a concrete quiescent trace keeps at most one snapshot, and
a concrete device-to-hierarchy switch clears the device snapshot without
any hierarchy settlement. -/
theorem c2_witness :
    quiescentOK (mountWorld pDevTok)
      [.settle 0 (.resolved true (some (.devicePayload sampleDeviceResp))) "T",
       .propsUpdate pHierTok] = true ∧
    ¬((runEvents (mountWorld pDevTok)
        [.settle 0 (.resolved true (some (.devicePayload sampleDeviceResp))) "T",
         .propsUpdate pHierTok]).comp.chartData.isSome = true ∧
      (runEvents (mountWorld pDevTok)
        [.settle 0 (.resolved true (some (.devicePayload sampleDeviceResp))) "T",
         .propsUpdate pHierTok]).comp.hierarchyChartData.isSome = true) ∧
    (step (mountWorld pDevTok) (.propsUpdate pHierTok)).comp.chartData = none :=
  ⟨by decide,
   c2_snapshot_exclusion.1 pDevTok
     [.settle 0 (.resolved true (some (.devicePayload sampleDeviceResp))) "T",
      .propsUpdate pHierTok] (by decide),
   c2_snapshot_exclusion.2.1 (mountWorld pDevTok) pHierTok rfl (by decide)
     rfl rfl⟩

end Dashboard
